import Mathlib

/-!
Verification of the internet-monitor repository: a shallow embedding of
its probe parser (`server-sqlite3.js`), HTTP query handlers, the daily CSV
export and failures-correlation report (`export_daily_csv.sh`), and the
dashboard timeline classifier (`app.js`).

Conventions of the embedding:
* epoch-millisecond timestamps are `Int` (SQLite INTEGER); SQLite integer
  division truncates toward zero, modelled by `Int.tdiv`;
* SQLite REAL arithmetic (`success_count * 1.0 / total`, `AVG`) and
  JavaScript number arithmetic are modelled by exact rationals `ℚ`;
* SQL NULL-able columns are `Option`-valued fields.
-/

namespace Monitor

/-- Row of the `pings` table: `(ts, target, alive, time_ms, ttl, raw)`.
`id` is omitted (never consulted by any query under study). -/
structure Ping where
  ts : Int
  target : String
  alive : Nat
  time_ms : Option ℚ
  ttl : Option Nat
  raw : String
deriving DecidableEq, Repr

/-! ### Health classification

`export_daily_csv.sh` lines 75-80, the `result` CASE expression:

    WHEN COALESCE(a.total,0) = 0 THEN 'no_data'
    WHEN COALESCE(a.success_count,0) * 1.0 / a.total >= 0.9 THEN 'UP'
    WHEN COALESCE(a.success_count,0) * 1.0 / a.total >= 0.5 THEN 'DEGRADED'
    ELSE 'DOWN'
-/

/-- The `result` CASE of the daily export, as a function of
`success_count` and `total`. -/
def resultCase (success total : Nat) : String :=
  if total = 0 then "no_data"
  else if (success : ℚ) / (total : ℚ) ≥ 9/10 then "UP"
  else if (success : ℚ) / (total : ℚ) ≥ 1/2 then "DEGRADED"
  else "DOWN"

/-- The CSS class chosen for one timeline segment by `renderTimeline`
(`app.js` lines 89-96): `total === 0` gives `warning`; otherwise
`ratio >= 0.9` gives `success`, `ratio >= 0.5` gives `warning`, else
`fail`. -/
def segmentClass (ok total : Nat) : String :=
  if total = 0 then "warning"
  else if (ok : ℚ) / (total : ℚ) ≥ 9/10 then "success"
  else if (ok : ℚ) / (total : ℚ) ≥ 1/2 then "warning"
  else "fail"

/-- C1: with `totalSamples > 0` and `ratio = successCount / totalSamples`,
the export classifies `UP` iff `ratio ≥ 0.9`, `DEGRADED` iff
`0.5 ≤ ratio < 0.9`, `DOWN` iff `ratio < 0.5`; `totalSamples = 0` gives
`no_data`; the boundary cases `0.9 → UP`, `0.5 → DEGRADED`,
`0.499999 → DOWN` hold; and the dashboard timeline applies the same
thresholds (its segment class coincides with the export state on every
non-empty bucket). -/
theorem classification_thresholds (s t : Nat) (ht : 0 < t) :
    (resultCase s t = "UP" ↔ (s : ℚ) / (t : ℚ) ≥ 9/10)
    ∧ (resultCase s t = "DEGRADED" ↔
        (1:ℚ)/2 ≤ (s : ℚ) / (t : ℚ) ∧ (s : ℚ) / (t : ℚ) < 9/10)
    ∧ (resultCase s t = "DOWN" ↔ (s : ℚ) / (t : ℚ) < 1/2)
    ∧ (∀ s', resultCase s' 0 = "no_data")
    ∧ (segmentClass s t = "success" ↔ resultCase s t = "UP")
    ∧ (segmentClass s t = "warning" ↔ resultCase s t = "DEGRADED")
    ∧ (segmentClass s t = "fail" ↔ resultCase s t = "DOWN")
    ∧ resultCase 9 10 = "UP"
    ∧ resultCase 1 2 = "DEGRADED"
    ∧ resultCase 499999 1000000 = "DOWN" := by
  have ht' : t ≠ 0 := Nat.pos_iff_ne_zero.mp ht
  refine ⟨?_, ?_, ?_, ?_, ?_, ?_, ?_, ?_, ?_, ?_⟩
  · unfold resultCase
    split_ifs with h1 h2 h3 <;> simp_all <;> try linarith
  · unfold resultCase
    split_ifs with h1 h2 h3 <;> simp_all <;> try linarith
  · unfold resultCase
    split_ifs with h1 h2 h3 <;> simp_all <;> try linarith
  · intro s'
    simp [resultCase]
  · unfold resultCase segmentClass
    split_ifs <;> simp_all
  · unfold resultCase segmentClass
    split_ifs <;> simp_all
  · unfold resultCase segmentClass
    split_ifs <;> simp_all
  · unfold resultCase
    norm_num
  · unfold resultCase
    norm_num
  · unfold resultCase
    norm_num

/-- C1 witness: the classification theorem applied at the concrete bucket
`successCount = 9`, `totalSamples = 10`. -/
theorem classification_thresholds_witness :
    0 < 10 ∧ (resultCase 9 10 = "UP" ↔ (9 : ℚ) / (10 : ℚ) ≥ 9/10) :=
  ⟨by decide, (classification_thresholds 9 10 (by decide)).1⟩

/-! ### Reachability probe parser

`server-sqlite3.js` lines 43-57 (the better-sqlite3 variant, lines
203-220, has the identical parsing body):

    const timeMatch = raw.match(/time[=<]\s*([\d.]+)\s*ms/i);
    const ttlMatch = raw.match(/ttl[=|:]\s*(\d+)/i);
    if (timeMatch) time_ms = parseFloat(timeMatch[1]);
    if (ttlMatch) ttl = parseInt(ttlMatch[1], 10);
    let alive = 0;
    if (timeMatch || /bytes from/i.test(raw)) alive = 1;

The regexes are embedded as explicit scanners over `List Char`.  `\s` is
modelled by the ASCII whitespace class; `/i` by lowercasing the subject
character before comparison with the (lowercase) pattern character.
-/

/-- ASCII part of the JavaScript regex class `\s`. -/
def isSpaceChar (c : Char) : Bool :=
  c = ' ' || c = '\t' || c = '\n' || c = '\r' || c = '\x0b' || c = '\x0c'

/-- Character class `[\d.]` of the time regex. -/
def isDigitOrDot (c : Char) : Bool := c.isDigit || c = '.'

/-- Case-insensitive literal match at the head of the subject: returns the
remainder of the subject after the pattern, or `none`.  The pattern is
given lowercase. -/
def startsWithCI : List Char → List Char → Option (List Char)
  | [], cs => some cs
  | _ :: _, [] => none
  | p :: ps, c :: cs => if c.toLower = p then startsWithCI ps cs else none

/-- Match of `/time[=<]\s*([\d.]+)\s*ms/i` anchored at the head of the
subject; returns the captured `[\d.]+` group.  (Maximal munch is
equivalent to the backtracking semantics here because the classes `[\d.]`,
`\s` and the literal `m` are pairwise disjoint.) -/
def matchTimeAt (cs : List Char) : Option (List Char) :=
  match startsWithCI ['t', 'i', 'm', 'e'] cs with
  | none => none
  | some rest =>
    match rest with
    | [] => none
    | c :: rest2 =>
      if c = '=' ∨ c = '<' then
        let afterSp := rest2.dropWhile isSpaceChar
        let digits := afterSp.takeWhile isDigitOrDot
        if digits.isEmpty then none
        else
          match startsWithCI ['m', 's']
              ((afterSp.dropWhile isDigitOrDot).dropWhile isSpaceChar) with
          | some _ => some digits
          | none => none
      else none

/-- Scan for the leftmost position where an anchored matcher succeeds
(`String.prototype.match` / `RegExp.prototype.test` semantics for a
non-global regex: every start position is tried, left to right). -/
def scanFirst (m : List Char → Option (List Char)) : List Char → Option (List Char)
  | [] => m []
  | c :: cs =>
    match m (c :: cs) with
    | some d => some d
    | none => scanFirst m cs

/-- Leftmost match of the time regex over the whole subject. -/
def findTime (cs : List Char) : Option (List Char) :=
  scanFirst matchTimeAt cs

/-- Match of `/ttl[=|:]\s*(\d+)/i` anchored at the head of the subject;
returns the captured digit group. -/
def matchTtlAt (cs : List Char) : Option (List Char) :=
  match startsWithCI ['t', 't', 'l'] cs with
  | none => none
  | some rest =>
    match rest with
    | [] => none
    | c :: rest2 =>
      if c = '=' ∨ c = '|' ∨ c = ':' then
        let digits := (rest2.dropWhile isSpaceChar).takeWhile Char.isDigit
        if digits.isEmpty then none else some digits
      else none

/-- Leftmost match of the ttl regex. -/
def findTtl (cs : List Char) : Option (List Char) :=
  scanFirst matchTtlAt cs

/-- The reply-evidence marker `/bytes from/i`. -/
def bytesFromPat : List Char := ['b', 'y', 't', 'e', 's', ' ', 'f', 'r', 'o', 'm']

/-- Case-insensitive substring test (`RegExp.prototype.test` for a literal
pattern). -/
def hasSubstrCI (pat : List Char) (cs : List Char) : Bool :=
  (scanFirst (startsWithCI pat) cs).isSome

/-- Numeric value of a digit list (`parseInt(·, 10)` on an all-digit
capture). -/
def digitsToNat (ds : List Char) : Nat :=
  ds.foldl (fun n c => 10 * n + (c.toNat - 48)) 0

/-- JavaScript `parseFloat` restricted to the shapes the `[\d.]+` capture
can take: leading digits, an optional dot, then fractional digits;
anything with no leading digit-or-fraction (for example `"."`) is NaN,
modelled as `none`. -/
def parseFloatQ (cs : List Char) : Option ℚ :=
  let ip := cs.takeWhile Char.isDigit
  match cs.dropWhile Char.isDigit with
  | '.' :: rest2 =>
    let fp := rest2.takeWhile Char.isDigit
    if ip.isEmpty && fp.isEmpty then none
    else some ((digitsToNat ip : ℚ) + (digitsToNat fp : ℚ) / (10 : ℚ) ^ fp.length)
  | _ => if ip.isEmpty then none else some (digitsToNat ip : ℚ)

/-- The structured outcome `{raw, alive, time_ms, ttl}` passed to the
insert path by `runPingCommand`. -/
structure PingOutcome where
  raw : String
  alive : Nat
  time_ms : Option ℚ
  ttl : Option Nat
deriving DecidableEq, Repr

/-- Parsing phase of `runPingCommand` (`server-sqlite3.js` lines 46-55),
as a pure function of the captured output. -/
def runPingParse (raw : String) : PingOutcome :=
  let cs := raw.data
  let timeMatch := findTime cs
  let ttlMatch := findTtl cs
  { raw := raw
    alive := if timeMatch.isSome || hasSubstrCI bytesFromPat cs then 1 else 0
    time_ms := timeMatch.bind parseFloatQ
    ttl := ttlMatch.map digitsToNat }

/-- Output of `ping` when a reply arrives but carries no parseable
`time=` field: reply evidence only. -/
def replyNoTimeOutput : String := "64 bytes from 8.8.8.8: icmp_seq=1 TTL=117"

/-- Scanning succeeds exactly when the anchored matcher succeeds at some
split of the subject. -/
theorem scanFirst_isSome_iff (m : List Char → Option (List Char)) (cs : List Char) :
    (scanFirst m cs).isSome = true ↔
      ∃ l1 l2, cs = l1 ++ l2 ∧ (m l2).isSome = true := by
  induction cs with
  | nil =>
    constructor
    · intro h
      exact ⟨[], [], rfl, h⟩
    · rintro ⟨l1, l2, hl, hm⟩
      rw [eq_comm, List.append_eq_nil] at hl
      obtain ⟨rfl, rfl⟩ := hl
      exact hm
  | cons c cs ih =>
    cases h : m (c :: cs) with
    | some d =>
      have hL : scanFirst m (c :: cs) = some d := by simp [scanFirst, h]
      rw [hL]
      simp only [Option.isSome_some, true_iff]
      exact ⟨[], c :: cs, rfl, by simp [h]⟩
    | none =>
      have hL : scanFirst m (c :: cs) = scanFirst m cs := by simp [scanFirst, h]
      rw [hL, ih]
      constructor
      · rintro ⟨l1, l2, rfl, hm⟩
        exact ⟨c :: l1, l2, rfl, hm⟩
      · rintro ⟨l1, l2, hl, hm⟩
        cases l1 with
        | nil =>
          simp only [List.nil_append] at hl
          subst hl
          rw [h] at hm
          simp at hm
        | cons a l1 =>
          rw [List.cons_append, List.cons.injEq] at hl
          exact ⟨l1, l2, hl.2, hm⟩

/-- Unfolding of the `alive` field of the parse. -/
theorem runPingParse_alive (raw : String) :
    (runPingParse raw).alive =
      if (findTime raw.data).isSome || hasSubstrCI bytesFromPat raw.data
      then 1 else 0 := rfl

/-- Unfolding of the `time_ms` field of the parse. -/
theorem runPingParse_time_ms (raw : String) :
    (runPingParse raw).time_ms = (findTime raw.data).bind parseFloatQ := rfl

/-- C6: the parser marks the sample alive (`alive = 1`) exactly when the
round-trip-time pattern matches somewhere in the output or the
`bytes from` reply-evidence marker is present somewhere in the output,
and unreachable (`alive = 0`) otherwise; in particular an output carrying
reply evidence but no parsable time field is still classified alive. -/
theorem reachable_iff_reply_evidence (raw : String) :
    ((runPingParse raw).alive = 1 ↔
      (∃ l1 l2, raw.data = l1 ++ l2 ∧ (matchTimeAt l2).isSome = true)
      ∨ ∃ l1 l2, raw.data = l1 ++ l2 ∧ (startsWithCI bytesFromPat l2).isSome = true)
    ∧ ((runPingParse raw).alive = 0 ↔
      ¬ ((∃ l1 l2, raw.data = l1 ++ l2 ∧ (matchTimeAt l2).isSome = true)
        ∨ ∃ l1 l2, raw.data = l1 ++ l2 ∧ (startsWithCI bytesFromPat l2).isSome = true))
    ∧ (runPingParse replyNoTimeOutput).alive = 1
    ∧ findTime replyNoTimeOutput.data = none := by
  have key : ((findTime raw.data).isSome || hasSubstrCI bytesFromPat raw.data) = true ↔
      (∃ l1 l2, raw.data = l1 ++ l2 ∧ (matchTimeAt l2).isSome = true)
      ∨ ∃ l1 l2, raw.data = l1 ++ l2 ∧ (startsWithCI bytesFromPat l2).isSome = true := by
    rw [Bool.or_eq_true]
    unfold findTime hasSubstrCI
    rw [scanFirst_isSome_iff, scanFirst_isSome_iff]
  refine ⟨?_, ?_, by decide, by decide⟩
  · rw [runPingParse_alive]
    split_ifs with h
    · exact iff_of_true rfl (key.mp h)
    · exact iff_of_false (by decide) fun hr => h (key.mpr hr)
  · rw [runPingParse_alive]
    split_ifs with h
    · exact iff_of_false (by decide) fun hn => hn (key.mp h)
    · exact iff_of_true rfl fun hr => h (key.mpr hr)

/-- C7: whenever the parser classifies a sample unreachable (`alive = 0`)
its latency stays `null`. -/
theorem unreachable_null_latency (raw : String)
    (h : (runPingParse raw).alive = 0) :
    (runPingParse raw).time_ms = none := by
  rw [runPingParse_alive] at h
  by_cases hc : ((findTime raw.data).isSome || hasSubstrCI bytesFromPat raw.data) = true
  · rw [if_pos hc] at h
    exact absurd h (by decide)
  · have hnone : findTime raw.data = none := by
      rw [← Option.not_isSome_iff_eq_none]
      intro hs
      exact hc (by simp [hs])
    rw [runPingParse_time_ms, hnone]
    rfl

/-- C7 witness: a probe whose output names no reply at all parses to
`alive = 0`, and the theorem then yields a `null` latency. -/
theorem unreachable_null_latency_witness :
    (runPingParse "ping: connect: Network is unreachable").alive = 0
    ∧ (runPingParse "ping: connect: Network is unreachable").time_ms = none :=
  ⟨by decide, unreachable_null_latency _ (by decide)⟩

/-! ### Daily CSV export

`export_daily_csv.sh` lines 34-88.  The SQL builds 1440 recursive minute
slots from `START_MS`, cross-joins the 5-target VALUES list, left-joins
per-minute per-target aggregates of `pings` restricted to
`[START_MS, END_MS)`, and orders by `m.ts ASC, t.t ASC`.
-/

/-- The `targets(t)` VALUES list, in source order. -/
def exportTargetValues : List String :=
  ["google.com", "8.8.8.8", "1.1.1.1", "frontier.com", "192.168.2.1"]

/-- The VALUES list in the `ORDER BY t.t ASC` (byte-wise string) order in
which the cross-joined rows are emitted. -/
def exportTargets : List String :=
  ["1.1.1.1", "192.168.2.1", "8.8.8.8", "frontier.com", "google.com"]

/-- The recursive `minutes(idx, ts)` CTE: 1440 slots of 60000 ms starting
at `START_MS`. -/
def minuteSlots (startMs : Int) : List Int :=
  (List.range 1440).map fun i : ℕ => startMs + 60000 * (i : ℤ)

/-- Minute-slot key `(p.ts / 60000) * 60000` of the `agg` CTE; SQLite
integer division truncates toward zero (`Int.tdiv`). -/
def slotOf (ts : Int) : Int := ts.tdiv 60000 * 60000

/-- Length of one exported day, `END_MS - START_MS`. -/
def dayMs : Int := 86400000

/-- The samples grouped into the `(minute_ts, target)` cell of the `agg`
CTE: window filter `p.ts >= START_MS AND p.ts < END_MS`, target match,
and slot key match. -/
def bucketSamples (ps : List Ping) (startMs endMs slot : Int) (t : String) :
    List Ping :=
  ps.filter fun p =>
    decide (p.target = t ∧ startMs ≤ p.ts ∧ p.ts < endMs ∧ slotOf p.ts = slot)

/-- The `SUM(CASE WHEN p.alive = 1 THEN 1 ELSE 0 END)` aggregate. -/
def successCount (b : List Ping) : Nat :=
  (b.filter fun p => decide (p.alive = 1)).length

/-- Running state of the SQLite `AVG(p.time_ms)` aggregate: sum and count
of the non-NULL inputs seen so far. -/
def avgFold (b : List Ping) : ℚ × Nat :=
  b.foldl
    (fun acc p =>
      match p.time_ms with
      | none => acc
      | some x => (acc.1 + x, acc.2 + 1))
    (0, 0)

/-- SQLite `AVG(p.time_ms)`: NULL when every input was NULL, otherwise
the sum of the non-NULL inputs over their count. -/
def sqlAvg (b : List Ping) : Option ℚ :=
  if (avgFold b).2 = 0 then none
  else some ((avgFold b).1 / ((avgFold b).2 : ℚ))

/-- Latencies that were actually recorded in a bucket (the non-NULL
`time_ms` values), used to state what `AVG` computes. -/
def bucketLatencies (b : List Ping) : List ℚ := b.filterMap Ping.time_ms

/-- Exactly `d` decimal digits of `n`, most significant first (the
fractional block a `printf` `%.df` conversion prints). -/
def fracDigits : Nat → Nat → List Char
  | 0, _ => []
  | d + 1, n => fracDigits d (n / 10) ++ [Char.ofNat (48 + n % 10)]

/-- The `printf('%.df', q)` rendering of a non-negative value: round to
`d` decimal places (ties away from zero, the observable behaviour on the
exact values at hand), then print integer part, a dot, and exactly `d`
fractional digits. -/
def fmtFixed (d : Nat) (q : ℚ) : String :=
  let scaled : Int := ⌊q * (10 : ℚ) ^ d + 1/2⌋
  toString (scaled / (10 ^ d : Int)) ++ "." ++
    String.mk (fracDigits d (scaled % (10 ^ d : Int)).toNat)

/-- One data row of the daily CSV (the `minute` column is kept as the
epoch-ms slot key that `datetime(m.ts/1000, ...)` renders). -/
structure CsvRow where
  minute_ts : Int
  target : String
  success_count : Nat
  total : Nat
  success_ratio : String
  avg_ms : String
  result : String
deriving DecidableEq, Repr

/-- One row of the export SELECT for a given slot and target, including
the `COALESCE(..., 0)` defaults of the LEFT JOIN and the CASE-rendered
`success_ratio`, `avg_ms` and `result` columns. -/
def exportRow (ps : List Ping) (startMs endMs slot : Int) (t : String) :
    CsvRow :=
  let b := bucketSamples ps startMs endMs slot t
  { minute_ts := slot
    target := t
    success_count := successCount b
    total := b.length
    success_ratio :=
      if b.length = 0 then "0.000"
      else fmtFixed 3 ((successCount b : ℚ) / (b.length : ℚ))
    avg_ms :=
      match sqlAvg b with
      | none => ""
      | some q => fmtFixed 2 q
    result := resultCase (successCount b) b.length }

/-- The full data-row list of the daily export: every minute slot (in ts
order) crossed with every target (in `ORDER BY t.t` order). -/
def dailyExport (ps : List Ping) (startMs : Int) : List CsvRow :=
  (minuteSlots startMs).flatMap fun slot =>
    exportTargets.map fun t => exportRow ps startMs (startMs + dayMs) slot t

/-- C3: the daily export emits exactly `1440 × targetCount` data rows,
keyed by exactly the (aligned minute slot, target) product; a sample is
assigned to the slot `floor(ts / 60000) · 60000`, and every in-window
timestamp's slot is one of the day's 1440 slots; over a day with no
samples every row is `no_data` with a 0 count and empty latency. -/
theorem daily_export_grid (ps : List Ping) (startMs : Int) :
    (dailyExport ps startMs).length = 1440 * exportTargets.length
    ∧ (((dailyExport ps startMs).map fun r => (r.minute_ts, r.target))
        = (minuteSlots startMs).flatMap fun slot =>
            exportTargets.map fun t => (slot, t))
    ∧ (((dailyExport ps startMs).map fun r => (r.minute_ts, r.target)).Nodup)
    ∧ (∀ p slot t,
        p ∈ bucketSamples ps startMs (startMs + dayMs) slot t ↔
          p ∈ ps ∧ p.target = t ∧ startMs ≤ p.ts ∧ p.ts < startMs + dayMs
            ∧ slotOf p.ts = slot)
    ∧ (∀ ts : Int, 0 ≤ startMs → (60000 : Int) ∣ startMs → startMs ≤ ts →
        ts < startMs + dayMs → slotOf ts ∈ minuteSlots startMs)
    ∧ (∀ r ∈ dailyExport [] startMs,
        r.result = "no_data" ∧ r.total = 0 ∧ r.success_count = 0
          ∧ r.avg_ms = "" ∧ r.success_ratio = "0.000") := by
  have hpairs : ((dailyExport ps startMs).map fun r => (r.minute_ts, r.target))
      = (minuteSlots startMs).flatMap fun slot =>
          exportTargets.map fun t => (slot, t) := by
    simp only [dailyExport, List.map_flatMap, List.map_map]
    rfl
  refine ⟨?_, hpairs, ?_, ?_, ?_, ?_⟩
  · have hlen : ∀ l : List Int,
        (l.flatMap fun slot =>
          exportTargets.map (exportRow ps startMs (startMs + dayMs) slot)).length
          = l.length * exportTargets.length := by
      intro l
      induction l with
      | nil => simp
      | cons a l ih => simp [ih, Nat.succ_mul, Nat.add_comm]
    rw [dailyExport, hlen, minuteSlots, List.length_map, List.length_range]
  · rw [hpairs]
    have hslots : (minuteSlots startMs).Nodup := by
      refine List.Nodup.map ?_ (List.nodup_range 1440)
      intro a b hab
      simpa using hab
    have htgt : exportTargets.Nodup := by
      simp [exportTargets]
    refine List.nodup_flatMap.2 ⟨fun slot _ => List.Nodup.map ?_ htgt, hslots.imp ?_⟩
    · intro a b hab
      exact congrArg Prod.snd hab
    · intro a b hne x hxa hxb
      simp only [List.mem_map] at hxa hxb
      obtain ⟨t1, -, rfl⟩ := hxa
      obtain ⟨t2, -, h2⟩ := hxb
      exact hne (congrArg Prod.fst h2).symm
  · intro p slot t
    simp only [bucketSamples, List.mem_filter, decide_eq_true_eq]
  · intro ts h0 hdvd hlo hhi
    obtain ⟨k, rfl⟩ := hdvd
    have hts : (0 : Int) ≤ ts := le_trans h0 hlo
    have htd : ts.tdiv 60000 = ts / 60000 :=
      Int.tdiv_eq_ediv hts (by norm_num)
    simp only [minuteSlots, List.mem_map, List.mem_range, slotOf, htd]
    rw [dayMs] at hhi
    refine ⟨(ts - 60000 * k).toNat / 60000, ?_, ?_⟩ <;> omega
  · intro r hr
    simp only [dailyExport, List.mem_flatMap, List.mem_map] at hr
    obtain ⟨slot, -, t, -, rfl⟩ := hr
    have hb : bucketSamples [] startMs (startMs + dayMs) slot t = [] := rfl
    refine ⟨?_, ?_, ?_, ?_, ?_⟩ <;>
      simp [exportRow, hb, successCount, sqlAvg, avgFold, resultCase]

/-- C3 witness: the grid theorem applied to an empty day starting at
epoch 0; the slot-coverage conjunct is instantiated at `ts = 120500`. -/
theorem daily_export_grid_witness :
    (dailyExport [] 0).length = 1440 * exportTargets.length
    ∧ slotOf 120500 ∈ minuteSlots 0 :=
  ⟨(daily_export_grid [] 0).1,
    (daily_export_grid [] 0).2.2.2.2.1 120500 (by decide) (dvd_zero _)
      (by decide) (by decide)⟩

/-- Folding the AVG accumulator over a bucket yields exactly the sum and
the count of the non-NULL latencies. -/
theorem avgFold_eq (b : List Ping) :
    avgFold b = ((bucketLatencies b).sum, (bucketLatencies b).length) := by
  have key : ∀ (acc : ℚ × ℕ),
      b.foldl
        (fun acc p =>
          match p.time_ms with
          | none => acc
          | some x => (acc.1 + x, acc.2 + 1))
        acc
        = (acc.1 + (b.filterMap Ping.time_ms).sum,
            acc.2 + (b.filterMap Ping.time_ms).length) := by
    induction b with
    | nil =>
      intro acc
      simp
    | cons p b ih =>
      intro acc
      cases hp : p.time_ms with
      | none =>
        simp only [List.foldl_cons, hp, List.filterMap_cons]
        exact ih acc
      | some x =>
        simp only [List.foldl_cons, hp, List.filterMap_cons]
        rw [ih]
        simp only [List.sum_cons, List.length_cons, Prod.mk.injEq]
        constructor
        · ring
        · omega
  rw [avgFold, key (0, 0), bucketLatencies]
  simp

/-- A `%.df` fractional block has exactly `d` characters. -/
theorem fracDigits_length (d n : ℕ) : (fracDigits d n).length = d := by
  induction d generalizing n with
  | zero => rfl
  | succ d ih => simp [fracDigits, ih]

/-- Every character of a `%.df` fractional block is a digit (hence not a
dot). -/
theorem fracDigits_spec (d n : ℕ) :
    ∀ c ∈ fracDigits d n, c.isDigit = true ∧ c ≠ '.' := by
  induction d generalizing n with
  | zero => simp [fracDigits]
  | succ d ih =>
    intro c hc
    simp only [fracDigits, List.mem_append, List.mem_singleton] at hc
    rcases hc with h | rfl
    · exact ih _ c h
    · have h10 : n % 10 < 10 := Nat.mod_lt _ (by decide)
      set m := n % 10 with hm
      interval_cases m <;> exact ⟨by decide, by decide⟩

/-- The character block after the last dot of a rendered string. -/
def afterDot (s : String) : List Char :=
  (s.data.reverse.takeWhile fun c => c != '.').reverse

/-- Character-level unfolding of `fmtFixed`. -/
theorem fmtFixed_data (d : ℕ) (q : ℚ) :
    (fmtFixed d q).data
      = (toString (⌊q * (10 : ℚ) ^ d + 1/2⌋ / (10 ^ d : Int))).data ++ '.' ::
          fracDigits d ((⌊q * (10 : ℚ) ^ d + 1/2⌋ % (10 ^ d : Int)).toNat) := by
  simp [fmtFixed, String.data_append]

/-- What follows the dot in a `fmtFixed d` rendering is its `d`-digit
fractional block. -/
theorem afterDot_fmtFixed (d : ℕ) (q : ℚ) :
    afterDot (fmtFixed d q)
      = fracDigits d ((⌊q * (10 : ℚ) ^ d + 1/2⌋ % (10 ^ d : Int)).toNat) := by
  unfold afterDot
  rw [fmtFixed_data, List.reverse_append, List.reverse_cons, List.append_assoc,
    List.takeWhile_append_of_pos, List.singleton_append,
    List.takeWhile_cons_of_neg, List.append_nil, List.reverse_reverse]
  · simp
  · intro a ha
    have := (fracDigits_spec d _ a (List.mem_reverse.mp ha)).2
    simpa using this

/-- A `fmtFixed` rendering is never the empty string. -/
theorem fmtFixed_not_empty (d : ℕ) (q : ℚ) : fmtFixed d q ≠ "" := by
  intro h
  have hd : (fmtFixed d q).data = [] := by rw [h]
  rw [fmtFixed_data] at hd
  simp at hd

/-- Unfolding of the `avg_ms` column. -/
theorem exportRow_avg_ms (ps : List Ping) (startMs endMs slot : Int) (t : String) :
    (exportRow ps startMs endMs slot t).avg_ms
      = match sqlAvg (bucketSamples ps startMs endMs slot t) with
        | none => ""
        | some q => fmtFixed 2 q := rfl

/-- Unfolding of the `success_ratio` column. -/
theorem exportRow_success_ratio (ps : List Ping) (startMs endMs slot : Int) (t : String) :
    (exportRow ps startMs endMs slot t).success_ratio
      = if (bucketSamples ps startMs endMs slot t).length = 0 then "0.000"
        else fmtFixed 3
          ((successCount (bucketSamples ps startMs endMs slot t) : ℚ)
            / ((bucketSamples ps startMs endMs slot t).length : ℚ)) := rfl

/-- Unfolding of the `result` column. -/
theorem exportRow_result (ps : List Ping) (startMs endMs slot : Int) (t : String) :
    (exportRow ps startMs endMs slot t).result
      = resultCase (successCount (bucketSamples ps startMs endMs slot t))
          (bucketSamples ps startMs endMs slot t).length := rfl

/-- C8: per (target, bucket), `AVG` is NULL exactly when no sample in the
bucket carried a latency — and then the exported `avg_ms` cell is the
empty string; otherwise `AVG` is the arithmetic mean of the non-null
latencies, rendered by `%.2f` (two digits after the dot), while the
success ratio of a non-empty bucket is rendered by `%.3f` (three digits
after the dot). -/
theorem average_latency_formatting (ps : List Ping) (startMs endMs slot : Int)
    (t : String) (b : List Ping)
    (hb : b = bucketSamples ps startMs endMs slot t) :
    (sqlAvg b = none ↔ bucketLatencies b = [])
    ∧ (bucketLatencies b ≠ [] →
        sqlAvg b
          = some ((bucketLatencies b).sum / ((bucketLatencies b).length : ℚ)))
    ∧ ((exportRow ps startMs endMs slot t).avg_ms = "" ↔ bucketLatencies b = [])
    ∧ (bucketLatencies b ≠ [] →
        (exportRow ps startMs endMs slot t).avg_ms
          = fmtFixed 2 ((bucketLatencies b).sum / ((bucketLatencies b).length : ℚ))
        ∧ (afterDot ((exportRow ps startMs endMs slot t).avg_ms)).length = 2)
    ∧ (b ≠ [] →
        (exportRow ps startMs endMs slot t).success_ratio
          = fmtFixed 3 ((successCount b : ℚ) / (b.length : ℚ))
        ∧ (afterDot ((exportRow ps startMs endMs slot t).success_ratio)).length = 3) := by
  subst hb
  have hAvg : sqlAvg (bucketSamples ps startMs endMs slot t)
      = if (bucketLatencies (bucketSamples ps startMs endMs slot t)).length = 0
        then none
        else some ((bucketLatencies (bucketSamples ps startMs endMs slot t)).sum
          / ((bucketLatencies (bucketSamples ps startMs endMs slot t)).length : ℚ)) := by
    rw [sqlAvg, avgFold_eq]
  refine ⟨?_, ?_, ?_, ?_, ?_⟩
  · rw [hAvg]
    split_ifs with h
    · simp [List.length_eq_zero.mp h]
    · simp only [reduceCtorEq, false_iff]
      intro hl
      exact h (by rw [hl]; rfl)
  · intro hne
    rw [hAvg, if_neg fun h => hne (List.length_eq_zero.mp h)]
  · rw [exportRow_avg_ms, hAvg]
    split_ifs with h
    · simp [List.length_eq_zero.mp h]
    · simp only []
      constructor
      · intro habs
        exact absurd habs (fmtFixed_not_empty 2 _)
      · intro hl
        exact absurd (by rw [hl]; rfl : (bucketLatencies
          (bucketSamples ps startMs endMs slot t)).length = 0) h
  · intro hne
    have hlen : (bucketLatencies (bucketSamples ps startMs endMs slot t)).length ≠ 0 :=
      fun h => hne (List.length_eq_zero.mp h)
    rw [exportRow_avg_ms, hAvg, if_neg hlen]
    exact ⟨rfl, by rw [afterDot_fmtFixed, fracDigits_length]⟩
  · intro hne
    have hlen : (bucketSamples ps startMs endMs slot t).length ≠ 0 :=
      fun h => hne (List.length_eq_zero.mp h)
    rw [exportRow_success_ratio, if_neg hlen]
    exact ⟨rfl, by rw [afterDot_fmtFixed, fracDigits_length]⟩

/-- C8 witness: the formatting theorem applied to the empty store (whose
buckets are empty, so `AVG` is NULL). -/
theorem average_latency_formatting_witness :
    sqlAvg [] = none ↔ bucketLatencies ([] : List Ping) = [] :=
  (average_latency_formatting [] 0 86400000 0 "google.com" [] rfl).1

/-- C9: a slot-target cell with zero samples renders `success_ratio` as
the literal `0.000`, `avg_ms` as the empty string and `result` as
lowercase `no_data`; `no_data` appears exactly for empty cells, and every
non-empty cell renders one of the uppercase states `UP`, `DEGRADED`,
`DOWN`. -/
theorem empty_slot_rendering (ps : List Ping) (startMs endMs slot : Int)
    (t : String) (h : bucketSamples ps startMs endMs slot t = []) :
    (exportRow ps startMs endMs slot t).success_ratio = "0.000"
    ∧ (exportRow ps startMs endMs slot t).avg_ms = ""
    ∧ (exportRow ps startMs endMs slot t).result = "no_data"
    ∧ (∀ s n : ℕ, resultCase s n = "no_data" ↔ n = 0)
    ∧ (∀ s n : ℕ, 0 < n →
        resultCase s n = "UP" ∨ resultCase s n = "DEGRADED"
          ∨ resultCase s n = "DOWN") := by
  refine ⟨?_, ?_, ?_, ?_, ?_⟩
  · rw [exportRow_success_ratio, h]
    rfl
  · rw [exportRow_avg_ms, h]
    rfl
  · rw [exportRow_result, h]
    rfl
  · intro s n
    unfold resultCase
    split_ifs with h1 h2 h3 <;> simp_all
  · intro s n hn
    unfold resultCase
    split_ifs with h1 h2 h3 <;> simp_all

/-- C9 witness: the rendering theorem applied to the empty store. -/
theorem empty_slot_rendering_witness :
    (exportRow [] 0 86400000 0 "google.com").success_ratio = "0.000"
    ∧ (exportRow [] 0 86400000 0 "google.com").avg_ms = "" :=
  ⟨(empty_slot_rendering [] 0 86400000 0 "google.com" rfl).1,
    (empty_slot_rendering [] 0 86400000 0 "google.com" rfl).2.1⟩

/-! ### Failures correlation report

`export_daily_csv.sh` (second script, `generate-failures-report.sh`)
lines 171-199: one row per `1.1.1.1` sample with `alive = 0` in
`[START_MS, END_MS)`, ordered by `f.ts ASC`; per other target a CASE of
two EXISTS subqueries over `p2.ts BETWEEN f.ts - TOL AND f.ts + TOL`,
`alive = 1` deciding `success` before `alive = 0` decides `fail`, else
`no_data`.
-/

/-- The designated primary target (`TARGET_KEY`). -/
def primaryTarget : String := "1.1.1.1"

/-- The other-target columns, in emitted column order. -/
def otherTargets : List String :=
  ["8.8.8.8", "google.com", "frontier.com", "192.168.2.1"]

/-- The tolerance default `TOL_MS=1500`. -/
def defaultTolMs : Int := 1500

/-- The per-target CASE: `success` if an alive sample of `t` exists in
the tolerance window around `t0`, else `fail` if a non-alive sample
exists there, else `no_data`. -/
def corrStatus (ps : List Ping) (t : String) (t0 tol : Int) : String :=
  if ps.any fun p =>
      decide (p.target = t ∧ t0 - tol ≤ p.ts ∧ p.ts ≤ t0 + tol ∧ p.alive = 1)
  then "success"
  else if ps.any fun p =>
      decide (p.target = t ∧ t0 - tol ≤ p.ts ∧ p.ts ≤ t0 + tol ∧ p.alive = 0)
  then "fail"
  else "no_data"

/-- One row of the failures report. -/
structure CorrRow where
  ts : Int
  primary : String
  statuses : List (String × String)
deriving DecidableEq, Repr

/-- The primary-failure WHERE clause. -/
def primaryFailures (ps : List Ping) (startMs endMs : Int) : List Ping :=
  ps.filter fun p =>
    decide (p.target = primaryTarget ∧ p.alive = 0 ∧ startMs ≤ p.ts ∧ p.ts < endMs)

/-- The full report: primary failures ordered by `ts ASC`, each with the
per-target correlation statuses. -/
def failuresReport (ps : List Ping) (startMs endMs tol : Int) : List CorrRow :=
  ((primaryFailures ps startMs endMs).mergeSort fun a b => decide (a.ts ≤ b.ts)).map
    fun f =>
      { ts := f.ts
        primary := "fail"
        statuses := otherTargets.map fun t => (t, corrStatus ps t f.ts tol) }

/-- C2: in a store whose samples all carry a 0/1 alive flag (what the
probe writes), the correlation cell is `success` iff some sample of the
other target within the tolerance of the failure timestamp is alive,
`fail` iff no such alive sample exists but some sample of that target
lies in the window, `no_data` iff no sample lies in the window (so alive
evidence takes precedence over failure evidence); the report rows are
ordered by ascending timestamp, carry the fixed `fail` primary marker and
the per-target statuses, and correspond one-to-one with the primary
failures of the window. -/
theorem correlation_rows (ps : List Ping) (startMs endMs tol : Int)
    (hal : ∀ p ∈ ps, p.alive = 0 ∨ p.alive = 1) :
    (∀ t t0,
      (corrStatus ps t t0 tol = "success" ↔
        ∃ p ∈ ps, p.target = t ∧ |p.ts - t0| ≤ tol ∧ p.alive = 1)
      ∧ (corrStatus ps t t0 tol = "fail" ↔
        (¬ ∃ p ∈ ps, p.target = t ∧ |p.ts - t0| ≤ tol ∧ p.alive = 1)
          ∧ ∃ p ∈ ps, p.target = t ∧ |p.ts - t0| ≤ tol)
      ∧ (corrStatus ps t t0 tol = "no_data" ↔
        ¬ ∃ p ∈ ps, p.target = t ∧ |p.ts - t0| ≤ tol))
    ∧ (failuresReport ps startMs endMs tol).Pairwise (fun a b => a.ts ≤ b.ts)
    ∧ (∀ r ∈ failuresReport ps startMs endMs tol,
        r.primary = "fail"
          ∧ r.statuses = otherTargets.map fun t => (t, corrStatus ps t r.ts tol))
    ∧ ((failuresReport ps startMs endMs tol).map CorrRow.ts).Perm
        ((primaryFailures ps startMs endMs).map Ping.ts) := by
  have hwin : ∀ p : Ping, ∀ t0 : Int,
      (t0 - tol ≤ p.ts ∧ p.ts ≤ t0 + tol) ↔ |p.ts - t0| ≤ tol := by
    intro p t0
    rw [abs_le]
    constructor <;> intro h <;> omega
  refine ⟨?_, ?_, ?_, ?_⟩
  · intro t t0
    have hA : (ps.any fun p =>
        decide (p.target = t ∧ t0 - tol ≤ p.ts ∧ p.ts ≤ t0 + tol ∧ p.alive = 1)) = true ↔
        ∃ p ∈ ps, p.target = t ∧ |p.ts - t0| ≤ tol ∧ p.alive = 1 := by
      simp only [List.any_eq_true, decide_eq_true_eq]
      constructor
      · rintro ⟨p, hp, h1, h2, h3, h4⟩
        exact ⟨p, hp, h1, (hwin p t0).mp ⟨h2, h3⟩, h4⟩
      · rintro ⟨p, hp, h1, hw, h4⟩
        obtain ⟨h2, h3⟩ := (hwin p t0).mpr hw
        exact ⟨p, hp, h1, h2, h3, h4⟩
    have hB : (ps.any fun p =>
        decide (p.target = t ∧ t0 - tol ≤ p.ts ∧ p.ts ≤ t0 + tol ∧ p.alive = 0)) = true ↔
        ∃ p ∈ ps, p.target = t ∧ |p.ts - t0| ≤ tol ∧ p.alive = 0 := by
      simp only [List.any_eq_true, decide_eq_true_eq]
      constructor
      · rintro ⟨p, hp, h1, h2, h3, h4⟩
        exact ⟨p, hp, h1, (hwin p t0).mp ⟨h2, h3⟩, h4⟩
      · rintro ⟨p, hp, h1, hw, h4⟩
        obtain ⟨h2, h3⟩ := (hwin p t0).mpr hw
        exact ⟨p, hp, h1, h2, h3, h4⟩
    unfold corrStatus
    split_ifs with h1 h2
    · refine ⟨iff_of_true rfl (hA.mp h1), iff_of_false (by decide) ?_,
        iff_of_false (by decide) ?_⟩
      · rintro ⟨hno, -⟩
        exact hno (hA.mp h1)
      · obtain ⟨p, hp, hpt, hpw, -⟩ := hA.mp h1
        intro hno
        exact hno ⟨p, hp, hpt, hpw⟩
    · have hfail : ∃ p ∈ ps, p.target = t ∧ |p.ts - t0| ≤ tol := by
        obtain ⟨p, hp, hpt, hpw, -⟩ := hB.mp h2
        exact ⟨p, hp, hpt, hpw⟩
      refine ⟨iff_of_false (by decide) fun hs => h1 (hA.mpr hs),
        iff_of_true rfl ⟨fun hs => h1 (hA.mpr hs), hfail⟩,
        iff_of_false (by decide) fun hno => hno hfail⟩
    · have hno : ¬ ∃ p ∈ ps, p.target = t ∧ |p.ts - t0| ≤ tol := by
        rintro ⟨p, hp, hpt, hpw⟩
        rcases hal p hp with h0 | h01
        · exact h2 (hB.mpr ⟨p, hp, hpt, hpw, h0⟩)
        · exact h1 (hA.mpr ⟨p, hp, hpt, hpw, h01⟩)
      refine ⟨iff_of_false (by decide) fun hs => h1 (hA.mpr hs),
        iff_of_false (by decide) fun hf => hno hf.2,
        iff_of_true rfl hno⟩
  · refine List.Pairwise.map _ (fun a b h => ?_)
      (List.sorted_mergeSort
        (fun a b c hab hbc => ?_) (fun a b => ?_)
        (primaryFailures ps startMs endMs))
    · exact of_decide_eq_true h
    · simp only [decide_eq_true_eq] at hab hbc ⊢
      omega
    · simp only [Bool.or_eq_true, decide_eq_true_eq]
      omega
  · intro r hr
    simp only [failuresReport, List.mem_map] at hr
    obtain ⟨f, -, rfl⟩ := hr
    exact ⟨rfl, rfl⟩
  · unfold failuresReport
    rw [List.map_map]
    have : (CorrRow.ts ∘ fun f : Ping =>
        ({ ts := f.ts, primary := "fail",
           statuses := otherTargets.map fun t => (t, corrStatus ps t f.ts tol) } : CorrRow))
        = Ping.ts := rfl
    rw [this]
    exact (List.mergeSort_perm (primaryFailures ps startMs endMs) _).map Ping.ts

/-- Concrete store for the precedence scenario: a primary failure at
`t0 = 10000` and, at `t0 + 1000`, one alive and one dead sample of the
same other target. -/
def wStore : List Ping :=
  [⟨10000, "1.1.1.1", 0, none, none, ""⟩,
   ⟨11000, "8.8.8.8", 1, some 12, none, ""⟩,
   ⟨11000, "8.8.8.8", 0, none, none, ""⟩]

/-- C2 witness: with tolerance 1500 the mixed-evidence target reports
`success` (alive evidence wins). -/
theorem correlation_rows_witness :
    corrStatus wStore "8.8.8.8" 10000 1500 = "success" :=
  ((correlation_rows wStore 0 86400000 1500 (by decide)).1 "8.8.8.8" 10000).1.mpr
    ⟨⟨11000, "8.8.8.8", 1, some 12, none, ""⟩,
      List.mem_cons_of_mem _ (List.mem_cons_self _ _), rfl, by norm_num, rfl⟩

/-! ### HTTP query handlers (sqlite3 fallback server)

`server-sqlite3.js` lines 112-142.  Each handler is modelled as a pure
function from the outcome of its store query (an `Except`, standing for
the `(err, rows)` callback pair) to the JSON body it sends; `res.json`
leaves the HTTP status at 200 in every branch of these handlers.
-/

/-- The configured target list of the servers. -/
def TARGETS : List String :=
  ["google.com", "8.8.8.8", "1.1.1.1", "frontier.com", "192.168.2.1"]

/-- A trace row `(ts, target, raw)`. -/
structure TraceRow where
  ts : Int
  target : String
  raw : String
deriving DecidableEq, Repr

/-- Response sent by `/api/pings`: on `err` the body is
`{ok:false, err}`, else `{ok:true, since, rows}`; status stays 200. -/
structure PingsResponse where
  status : Nat
  ok : Bool
  err : Option String
  since : Option ℚ
  rows : Option (List Ping)
deriving Repr

/-- Response sent by `/api/traceroutes`. -/
structure TracesResponse where
  status : Nat
  ok : Bool
  err : Option String
  rows : Option (List TraceRow)
deriving Repr

/-- Response sent by `/api/status`; the handler never attaches an `err`
key. -/
structure StatusResponse where
  status : Nat
  ok : Bool
  err : Option String
  targets : List String
  latest : List (String × Option Ping)
deriving Repr

/-- The `/api/pings` callback (lines 116-119): `err` branch returns
`{ok:false, err: err.message}`, success branch `{ok:true, since, rows}`. -/
def pingsCallback (since : ℚ) (q : Except String (List Ping)) : PingsResponse :=
  match q with
  | .error e => { status := 200, ok := false, err := some e, since := none, rows := none }
  | .ok rows => { status := 200, ok := true, err := none, since := some since, rows := some rows }

/-- The `/api/traceroutes` callback (lines 138-141). -/
def traceroutesCallback (q : Except String (List TraceRow)) : TracesResponse :=
  match q with
  | .error e => { status := 200, ok := false, err := some e, rows := none }
  | .ok rows => { status := 200, ok := true, err := none, rows := some rows }

/-- Per-target entry of `/api/status` (line 128): `latest[target] = row
|| null` — on a query error `row` is `undefined`, so the entry is `null`
exactly as for a target with no samples. -/
def latestEntry (r : Except String (Option Ping)) : Option Ping :=
  match r with
  | .error _ => none
  | .ok row => row

/-- The `/api/status` handler (lines 122-134): after all targets are
processed it always sends `{ok:true, targets, latest}`. -/
def statusHandler (results : String → Except String (Option Ping)) :
    StatusResponse :=
  { status := 200
    ok := true
    err := none
    targets := TARGETS
    latest := TARGETS.map fun t => (t, latestEntry (results t)) }

/-- C4 counterexample: with every per-target query failing, `/api/status`
still answers `ok:true` with no `err`, every entry `null` — a query
failure is not surfaced as `ok:false` on this endpoint. -/
theorem status_error_not_surfaced :
    (statusHandler fun _ => .error "SQLITE_BUSY: database is locked").ok = true
    ∧ (statusHandler fun _ => .error "SQLITE_BUSY: database is locked").err = none
    ∧ ∀ tp ∈ (statusHandler fun _ => .error "SQLITE_BUSY: database is locked").latest,
        tp.2 = none := by
  refine ⟨rfl, rfl, ?_⟩
  intro tp htp
  fin_cases htp <;> rfl

/-- C4 (amended): `/api/pings` and `/api/traceroutes` surface a query
failure as a structured `{ok:false, err}` body while keeping HTTP status
200 (and answer `ok:true` on success), whereas `/api/status` never
surfaces a query error: it always answers `ok:true`. -/
theorem query_error_responses (e : String) (since : ℚ) :
    ((pingsCallback since (.error e)).ok = false
      ∧ (pingsCallback since (.error e)).err = some e
      ∧ (pingsCallback since (.error e)).status = 200)
    ∧ ((traceroutesCallback (.error e)).ok = false
      ∧ (traceroutesCallback (.error e)).err = some e
      ∧ (traceroutesCallback (.error e)).status = 200)
    ∧ (∀ rows : List Ping, (pingsCallback since (.ok rows)).ok = true)
    ∧ (∀ rows : List TraceRow, (traceroutesCallback (.ok rows)).ok = true)
    ∧ (∀ results, (statusHandler results).ok = true
        ∧ (statusHandler results).err = none) :=
  ⟨⟨rfl, rfl, rfl⟩, ⟨rfl, rfl, rfl⟩, fun _ => rfl, fun _ => rfl,
    fun _ => ⟨rfl, rfl⟩⟩

/-- C10: `/api/status` always answers `ok:true` at status 200, with
exactly one `latest` key per configured target in order; a per-target
query error produces the same `null` entry as a target with no samples;
and no error response exists (no `err` key, `ok` never false). -/
theorem status_endpoint_total (results : String → Except String (Option Ping)) :
    (statusHandler results).ok = true
    ∧ (statusHandler results).status = 200
    ∧ (statusHandler results).err = none
    ∧ (statusHandler results).targets = TARGETS
    ∧ (statusHandler results).latest.map Prod.fst = TARGETS
    ∧ ((statusHandler results).latest
        = TARGETS.map fun t => (t, latestEntry (results t)))
    ∧ (∀ e, latestEntry (.error e) = latestEntry (.ok none)) := by
  refine ⟨rfl, rfl, rfl, rfl, ?_, rfl, fun _ => rfl⟩
  simp [statusHandler, List.map_map, Function.comp_def]

/-! ### The `/api/pings` query pipeline

Lines 112-120:

    const hours = parseFloat(req.query.hours) || 24;
    const since = Date.now() - Math.max(1, hours) * 60 * 60 * 1000;
    const limit = parseInt(req.query.limit || '200000', 10);
    db.all('SELECT * FROM pings WHERE ts >= ? ORDER BY ts ASC LIMIT ?', ...)

`parseFloat` of an absent or unparsable parameter is NaN, which is falsy
(modelled as `none`); `0` is falsy too, so `hours=0` also falls back to
24 — that is the JavaScript `||` operator, not a 1-hour floor.
-/

/-- The `parseFloat(req.query.hours) || 24` expression. -/
def hoursOf (hoursParam : Option ℚ) : ℚ :=
  match hoursParam with
  | none => 24
  | some h => if h = 0 then 24 else h

/-- The query window start `Date.now() - Math.max(1, hours) * 3600000`. -/
def sinceOf (now : ℚ) (hoursParam : Option ℚ) : ℚ :=
  now - max 1 (hoursOf hoursParam) * (60 * 60 * 1000)

/-- The `parseInt(req.query.limit || '200000', 10)` expression. -/
def limitOf (limitParam : Option Nat) : Nat :=
  limitParam.getD 200000

/-- The SELECT: window filter, `ORDER BY ts ASC`, `LIMIT`. -/
def pingsQueryRows (ps : List Ping) (since : ℚ) (limit : Nat) : List Ping :=
  ((ps.filter fun p => decide (since ≤ (p.ts : ℚ))).mergeSort
    fun a b => decide (a.ts ≤ b.ts)).take limit

/-- The success body of `GET /api/pings`. -/
structure PingsOkBody where
  since : ℚ
  rows : List Ping
deriving Repr

/-- The full success path of `GET /api/pings`. -/
def apiPings (ps : List Ping) (now : ℚ) (hoursParam : Option ℚ)
    (limitParam : Option Nat) : PingsOkBody :=
  { since := sinceOf now hoursParam
    rows := pingsQueryRows ps (sinceOf now hoursParam) (limitOf limitParam) }

/-- C5 counterexample: `hours=0` is below 1 but is falsy in JavaScript,
so it selects the 24-hour default window, not the `hours=1` window. -/
theorem hours_zero_counterexample :
    sinceOf 100000000 (some 0) ≠ sinceOf 100000000 (some 1)
    ∧ sinceOf 100000000 (some 0) = sinceOf 100000000 none := by
  constructor <;> norm_num [sinceOf, hoursOf]

/-- C5 (amended): `/api/pings` rows are sorted by ascending timestamp,
capped at the limit (default 200000 when absent), drawn from the window
`ts ≥ since`; `hours` defaults to 24 when absent; every nonzero `hours`
below 1 selects the same window as `hours=1`, while `hours=0` is treated
as absent and selects the 24-hour default. -/
theorem pings_query_contract (ps : List Ping) (now : ℚ) (hp : Option ℚ)
    (lp : Option Nat) :
    (apiPings ps now hp lp).rows.Pairwise (fun a b => a.ts ≤ b.ts)
    ∧ (apiPings ps now hp lp).rows.length ≤ limitOf lp
    ∧ (∀ p ∈ (apiPings ps now hp lp).rows,
        p ∈ ps ∧ (apiPings ps now hp lp).since ≤ (p.ts : ℚ))
    ∧ limitOf none = 200000
    ∧ hoursOf none = 24
    ∧ (∀ h : ℚ, h < 1 → h ≠ 0 → sinceOf now (some h) = sinceOf now (some 1))
    ∧ sinceOf now (some 0) = sinceOf now none := by
  refine ⟨?_, ?_, ?_, rfl, rfl, ?_, ?_⟩
  · have hs : ((ps.filter fun p => decide (sinceOf now hp ≤ (p.ts : ℚ))).mergeSort
        fun a b => decide (a.ts ≤ b.ts)).Pairwise
          (fun a b => decide (a.ts ≤ b.ts) = true) :=
      List.sorted_mergeSort
        (fun a b c hab hbc => by
          simp only [decide_eq_true_eq] at hab hbc ⊢
          omega)
        (fun a b => by
          simp only [Bool.or_eq_true, decide_eq_true_eq]
          omega)
        _
    exact ((hs.sublist (List.take_sublist _ _)).imp fun h => of_decide_eq_true h)
  · exact List.length_take_le _ _
  · intro p hp'
    simp only [apiPings, pingsQueryRows] at hp' ⊢
    have h1 := List.mem_of_mem_take hp'
    rw [List.mem_mergeSort, List.mem_filter] at h1
    exact ⟨h1.1, of_decide_eq_true h1.2⟩
  · intro h h1 h0
    have hh : hoursOf (some h) = h := by
      show (if h = 0 then (24 : ℚ) else h) = h
      exact if_neg h0
    have h24 : hoursOf (some 1) = 1 := by
      show (if (1 : ℚ) = 0 then (24 : ℚ) else 1) = 1
      norm_num
    unfold sinceOf
    rw [hh, h24, max_eq_left h1.le, max_self]
  · have h0 : hoursOf (some 0) = 24 := by
      show (if (0 : ℚ) = 0 then (24 : ℚ) else 0) = 24
      norm_num
    unfold sinceOf
    rw [h0]
    rfl

/-- C5 amended-claim witness: the sub-1 flooring applied at the concrete
value `hours = -2` (parseFloat of "-2" is truthy). -/
theorem pings_query_contract_witness :
    (-2 : ℚ) < 1 ∧ (-2 : ℚ) ≠ 0
    ∧ sinceOf 100000000 (some (-2)) = sinceOf 100000000 (some 1) :=
  ⟨by norm_num, by norm_num,
    (pings_query_contract [] 100000000 (some (-2)) none).2.2.2.2.2.1 (-2)
      (by norm_num) (by norm_num)⟩

end Monitor
